import Mathlib

/-!
Verification development for the bounded conversation context manager
implemented in `src/tools/tool-selection.ts` (the `ConversationManager`
class together with `MemoryStorage` and `estimateTokens`).

The TypeScript code is shallowly embedded below: every definition mirrors
one function or code path of the source file.  JavaScript numbers are
modelled as `Int` where the source arithmetic can go negative (the token
budget in `buildContext`) and as `Nat` where it cannot (word counts,
lengths, timestamps).  The in-memory storage map is modelled as a function
`String → Option ThreadState`; `Map.set` becomes a functional update.
-/

namespace ConvMgr

/-- Role of a message: the source union type `'system' | 'user' | 'assistant'`. -/
inductive Role where
  | system
  | user
  | assistant
deriving DecidableEq

/-- `MessageRecord` from the source: one turn of dialogue. -/
structure MessageRecord where
  id : String
  role : Role
  content : String
  createdAt : Nat
deriving DecidableEq

/-- `ThreadState` from the source: the persisted unit of conversation state. -/
structure ThreadState where
  id : String
  messages : List MessageRecord
  summary : String
  lastUpdated : Nat
deriving DecidableEq

/-- `MemoryStorage`: a `Map<string, ThreadState>` modelled as a lookup function. -/
abbrev Store := String → Option ThreadState

/-- The empty storage map. -/
def Store.empty : Store := fun _ => none

/-- `saveThread(state)`: `this.store.set(state.id, state)`. -/
def Store.save (s : Store) (st : ThreadState) : Store :=
  fun k => if k = st.id then some st else s k

/-- Counts maximal runs of non-whitespace characters, carrying a flag that
records whether the previous character was inside a word. -/
def wordCountAux : List Char → Bool → Nat
  | [], _ => 0
  | c :: cs, inWord =>
    if c.isWhitespace then wordCountAux cs false
    else (if inWord then 0 else 1) + wordCountAux cs true

/-- The word count used by `estimateTokens`:
`text.trim().split(/\s+/).length` in the source.  On a trimmed non-empty
string, splitting on runs of whitespace yields exactly the maximal
non-whitespace runs, so the length is the number of such runs; on the empty
(or all-whitespace) string, JavaScript `"".split(/\s+/)` yields `[""]` of
length 1, hence the `if n = 0 then 1` branch. -/
def wordCount (text : String) : Nat :=
  let n := wordCountAux text.data false
  if n = 0 then 1 else n

/-- `estimateTokens` from the source:
`Math.max(1, Math.round(words * 1.3))`.  Round-half-up of `13 * w / 10` is
`(13 * w + 5) / 10` in integer arithmetic; for the word counts reachable
here the double-precision product `words * 1.3` rounds to the same integer. -/
def estimateTokens (text : String) : Nat :=
  max 1 ((13 * wordCount text + 5) / 10)

/-- LangChain `BaseMessage` values produced by the manager. -/
inductive BaseMessage where
  | human (content : String)
  | ai (content : String)
  | system (content : String)
deriving DecidableEq

/-- `toBaseMessage` from the source. -/
def toBaseMessage (m : MessageRecord) : BaseMessage :=
  match m.role with
  | .user => .human m.content
  | .assistant => .ai m.content
  | .system => .system m.content

/-- `ConversationManagerOptions` after the constructor applied its `??`
defaults: every field present. -/
structure ConversationManagerOptions where
  maxPromptTokens : Int
  compressAfterTokens : Int
  keepRecent : Nat
  systemPrompt : String
deriving DecidableEq

/-- The constructor defaults: `6000`, `4000`, `8` and the default system prompt. -/
def defaultOptions : ConversationManagerOptions :=
  { maxPromptTokens := 6000
    compressAfterTokens := 4000
    keepRecent := 8
    systemPrompt := "You are a helpful, concise assistant. Use the `Thread Summary` for long-term context." }

/-- Errors surfaced by the manager: the `Thread not found` exception of
`requireThread`, and a rejected completion-service call. -/
inductive ConvError where
  | notFound (threadId : String)
  | completionFailure
deriving DecidableEq

/-- The completion service (`this.model.invoke`): an opaque, possibly
failing map from an ordered message list to a text. -/
abbrev Oracle := List BaseMessage → Except Unit String

/-- The header content synthesized by `buildContext`:
the system prompt, a separator, and `state.summary || '(none yet)'`
(the empty string is falsy in JavaScript). -/
def headerContent (systemPrompt summary : String) : String :=
  systemPrompt ++ "\n\n---\nThread Summary (compressed):\n" ++
    (if summary = "" then "(none yet)" else summary)

/-- The per-message cost charged by `buildContext`:
`estimateTokens(m.content) + 5` overhead. -/
def msgCost (m : MessageRecord) : Int :=
  (estimateTokens m.content : Int) + 5

/-- `messages.slice(-keepRecent)`: the recent window.  JavaScript `slice(-0)`
is `slice(0)` (the whole array), hence the explicit zero case; for
`keepRecent ≥ 1` a negative start clamps to `0`, which truncated subtraction
models. -/
def recentWindow (keepRecent : Nat) (messages : List MessageRecord) : List MessageRecord :=
  if keepRecent = 0 then messages
  else messages.drop (messages.length - keepRecent)

/-- `messages.slice(0, Math.max(0, messages.length - keepRecent))`: the part
of the history before the recent window. -/
def olderWindow (keepRecent : Nat) (messages : List MessageRecord) : List MessageRecord :=
  messages.take (messages.length - keepRecent)

/-- The first admission loop of `buildContext` (over the recent window,
oldest first), returning the selected messages.  A message is admitted only
if `tokenBudget - t > 0`; the loop breaks at the first failure. -/
def admitRecentSel : Int → List MessageRecord → List MessageRecord
  | _, [] => []
  | budget, m :: rest =>
    if budget - msgCost m ≤ 0 then []
    else m :: admitRecentSel (budget - msgCost m) rest

/-- The token budget remaining after the first admission loop (the same
recursion as `admitRecentSel`, projected onto the mutable `tokenBudget`). -/
def admitRecentBudget : Int → List MessageRecord → Int
  | budget, [] => budget
  | budget, m :: rest =>
    if budget - msgCost m ≤ 0 then budget
    else admitRecentBudget (budget - msgCost m) rest

/-- The second admission loop of `buildContext`: walk the reversed older
window, `unshift`ing each admitted message onto the front of the already
selected list, breaking at the first message that does not fit. -/
def admitOlder : Int → List MessageRecord → List MessageRecord → List MessageRecord
  | _, [], selected => selected
  | budget, m :: rest, selected =>
    if budget - msgCost m ≤ 0 then selected
    else admitOlder (budget - msgCost m) rest (m :: selected)

/-- `tokenBudget` after the header subtraction:
`maxPromptTokens - estimateTokens(header.content)`. -/
def budget0 (cfg : ConversationManagerOptions) (state : ThreadState) : Int :=
  cfg.maxPromptTokens - (estimateTokens (headerContent cfg.systemPrompt state.summary) : Int)

/-- The `selected` list computed by `buildContext`: the recent window is
walked first, then older messages are pulled in front of it. -/
def buildSelected (cfg : ConversationManagerOptions) (state : ThreadState) : List MessageRecord :=
  admitOlder
    (admitRecentBudget (budget0 cfg state) (recentWindow cfg.keepRecent state.messages))
    ((olderWindow cfg.keepRecent state.messages).reverse)
    (admitRecentSel (budget0 cfg state) (recentWindow cfg.keepRecent state.messages))

/-- The value returned by `buildContext` on a present thread:
`[header, ...selected.map(toBaseMessage)]`. -/
def buildContextPure (cfg : ConversationManagerOptions) (state : ThreadState) : List BaseMessage :=
  BaseMessage.system (headerContent cfg.systemPrompt state.summary)
    :: (buildSelected cfg state).map toBaseMessage

/-- Aggregate estimated token cost of the list returned by `buildContext`:
the header estimate plus, for each selected message, content estimate plus
the per-message overhead. -/
def contextCost (cfg : ConversationManagerOptions) (state : ThreadState) : Int :=
  (estimateTokens (headerContent cfg.systemPrompt state.summary) : Int) +
    ((buildSelected cfg state).map msgCost).sum

/-- Strips the characters satisfying `isWhitespace` from the front of a list. -/
def dropLeadingWs : List Char → List Char
  | [] => []
  | c :: cs => if c.isWhitespace then dropLeadingWs cs else c :: cs

/-- JavaScript `String.prototype.trim`: drop whitespace at both ends. -/
def trimString (s : String) : String :=
  ⟨(dropLeadingWs (dropLeadingWs s.data.reverse).reverse)⟩

/-- `Array.prototype.join(sep)`: empty arrays give the empty string. -/
def joinSep (sep : String) : List String → String
  | [] => ""
  | [s] => s
  | s :: rest => s ++ sep ++ joinSep sep rest

/-- `m.role.toUpperCase()` as rendered in the compression prompt. -/
def roleUpper : Role → String
  | .system => "SYSTEM"
  | .user => "USER"
  | .assistant => "ASSISTANT"

/-- The trigger quantity of `maybeCompress`:
`estimateTokens(state.messages.map(m => m.content).join(' \n'))`. -/
def totalTokens (state : ThreadState) : Nat :=
  estimateTokens (joinSep " \n" (state.messages.map (fun m => m.content)))

/-- The chunk size spliced off by `maybeCompress`:
`Math.max(6, Math.floor(state.messages.length * 0.25))`; multiplying an
array length by the exactly representable double `0.25` and flooring is
integer division by 4. -/
def compressChunkSize (state : ThreadState) : Nat :=
  max 6 (state.messages.length / 4)

/-- The two-message completion request issued by `maybeCompress`. -/
def compressionPrompt (summary : String) (chunk : List MessageRecord) : List BaseMessage :=
  [BaseMessage.system "Summarize the following chat messages into a concise, factual running summary. Keep entities, decisions, and any explicit constraints. Use bullet points.",
   BaseMessage.human
     ("Existing summary (may be empty):\n" ++ summary ++ "\n\nMessages to compress:\n" ++
       joinSep "\n" (chunk.map (fun m => roleUpper m.role ++ ": " ++ m.content)) ++
       "\n\nReturn only the updated summary.")]

/-- `initThread`: returns the id unchanged and saves a fresh empty state only
when the id is not yet present.  The `threadId ?? uuid()` default and
`Date.now()` are supplied by the caller as `threadId` and `now`. -/
def initThread (store : Store) (threadId : String) (now : Nat) : String × Store :=
  match store threadId with
  | some _ => (threadId, store)
  | none =>
    (threadId, store.save { id := threadId, messages := [], summary := "", lastUpdated := now })

/-- `addUserMessage`: `requireThread`, push a fresh user message, update
`lastUpdated`, save.  `uuid()` and `Date.now()` are the parameters
`freshId` and `now`. -/
def addUserMessage (store : Store) (threadId content freshId : String) (now : Nat) :
    Except ConvError Unit × Store :=
  match store threadId with
  | none => (.error (.notFound threadId), store)
  | some state =>
    (.ok (),
      store.save { state with
        messages := state.messages ++ [{ id := freshId, role := .user, content := content, createdAt := now }]
        lastUpdated := now })

/-- `addAssistantMessage`: as `addUserMessage` with role `assistant`. -/
def addAssistantMessage (store : Store) (threadId content freshId : String) (now : Nat) :
    Except ConvError Unit × Store :=
  match store threadId with
  | none => (.error (.notFound threadId), store)
  | some state =>
    (.ok (),
      store.save { state with
        messages := state.messages ++ [{ id := freshId, role := .assistant, content := content, createdAt := now }]
        lastUpdated := now })

/-- `buildContext` as a storage operation: `requireThread` then the pure
assembly; it performs no save. -/
def buildContext (cfg : ConversationManagerOptions) (store : Store) (threadId : String) :
    Except ConvError (List BaseMessage) × Store :=
  match store threadId with
  | none => (.error (.notFound threadId), store)
  | some state => (.ok (buildContextPure cfg state), store)

/-- `maybeCompress`.  The source `splice`s the oldest chunk out of
`state.messages` *before* awaiting the completion call; since
`MemoryStorage` holds the very object that is mutated in place, the removal
is visible in the store even when the call then rejects and `saveThread` is
never reached.  The error branch therefore carries the spliced state; the
success branch additionally installs the trimmed summary and `lastUpdated`
and saves. -/
def maybeCompress (cfg : ConversationManagerOptions) (oracle : Oracle) (store : Store)
    (threadId : String) (now : Nat) : Except ConvError Unit × Store :=
  match store threadId with
  | none => (.error (.notFound threadId), store)
  | some state =>
    if (totalTokens state : Int) < cfg.compressAfterTokens then (.ok (), store)
    else
      match oracle (compressionPrompt state.summary (state.messages.take (compressChunkSize state))) with
      | .error _ =>
        (.error .completionFailure,
          store.save { state with messages := state.messages.drop (compressChunkSize state) })
      | .ok text =>
        (.ok (),
          store.save { state with
            messages := state.messages.drop (compressChunkSize state)
            summary := trimString text
            lastUpdated := now })

/-- `getThreadView`: read-only `{summary, messages}` snapshot. -/
def getThreadView (store : Store) (threadId : String) :
    Except ConvError (String × List MessageRecord) × Store :=
  match store threadId with
  | none => (.error (.notFound threadId), store)
  | some state => (.ok (state.summary, state.messages), store)

/-- `generate`: append the user message, maybe compress, build the context,
invoke the completion service, append the assistant message, return the
text.  Every thrown error propagates with the storage as the failed step
left it. -/
def generate (cfg : ConversationManagerOptions) (oracle : Oracle) (store : Store)
    (threadId userInput uid1 uid2 : String) (now : Nat) : Except ConvError String × Store :=
  match addUserMessage store threadId userInput uid1 now with
  | (.error e, s) => (.error e, s)
  | (.ok _, s1) =>
    match maybeCompress cfg oracle s1 threadId now with
    | (.error e, s) => (.error e, s)
    | (.ok _, s2) =>
      match buildContext cfg s2 threadId with
      | (.error e, s) => (.error e, s)
      | (.ok ctx, s3) =>
        match oracle ctx with
        | .error _ => (.error .completionFailure, s3)
        | .ok text =>
          match addAssistantMessage s3 threadId text uid2 now with
          | (.error e, s) => (.error e, s)
          | (.ok _, s4) => (.ok text, s4)

/-! Concrete fixtures used by counterexamples and witnesses. -/

/-- An empty thread with id `t`. -/
def stEmpty : ThreadState :=
  { id := "t", messages := [], summary := "", lastUpdated := 0 }

/-- A thread with eight one-word user messages and distinct ids. -/
def stBig : ThreadState :=
  { id := "t"
    messages :=
      [{ id := "m1", role := .user, content := "a", createdAt := 1 },
       { id := "m2", role := .user, content := "a", createdAt := 2 },
       { id := "m3", role := .user, content := "a", createdAt := 3 },
       { id := "m4", role := .user, content := "a", createdAt := 4 },
       { id := "m5", role := .user, content := "a", createdAt := 5 },
       { id := "m6", role := .user, content := "a", createdAt := 6 },
       { id := "m7", role := .user, content := "a", createdAt := 7 },
       { id := "m8", role := .user, content := "a", createdAt := 8 }]
    summary := ""
    lastUpdated := 8 }

/-- A configuration whose prompt budget is smaller than any header cost. -/
def cfgTiny : ConversationManagerOptions :=
  { maxPromptTokens := 1, compressAfterTokens := 4000, keepRecent := 8, systemPrompt := "hi" }

/-- A configuration with a roomy budget and a compaction threshold of one
token, so any non-empty history triggers compaction. -/
def cfgTrigger : ConversationManagerOptions :=
  { maxPromptTokens := 6000, compressAfterTokens := 1, keepRecent := 8, systemPrompt := "hi" }

/-- Storage holding only `stBig` under its id. -/
def storeBig : Store := Store.empty.save stBig

/-- Storage holding only `stEmpty` under its id. -/
def storeEmptyThread : Store := Store.empty.save stEmpty

/-- A completion service that always rejects. -/
def oracleFail : Oracle := fun _ => .error ()

/-- A completion service that always answers with the one-word text `ok`. -/
def oracleOk : Oracle := fun _ => .ok "ok"

/-! Helper lemmas about the admission loops of `buildContext`. -/

/-- Every message is charged at least its five-token overhead. -/
theorem msgCost_pos (m : MessageRecord) : 0 < msgCost m := by
  unfold msgCost
  have h : (0 : Int) ≤ (estimateTokens m.content : Int) := Int.ofNat_nonneg _
  omega

/-- With no budget left, the first loop admits nothing. -/
theorem admitRecentSel_nil_of_nonpos (b : Int) (ms : List MessageRecord) (h : b ≤ 0) :
    admitRecentSel b ms = [] := by
  cases ms with
  | nil => rfl
  | cons m rest =>
    unfold admitRecentSel
    rw [if_pos]
    have := msgCost_pos m
    omega

/-- With no budget left, the second loop admits nothing either. -/
theorem admitOlder_eq_of_nonpos (b : Int) (ms sel : List MessageRecord) (h : b ≤ 0) :
    admitOlder b ms sel = sel := by
  cases ms with
  | nil => rfl
  | cons m rest =>
    unfold admitOlder
    rw [if_pos]
    have := msgCost_pos m
    omega

/-- The first loop selects a sublist of the recent window. -/
theorem admitRecentSel_sublist (b : Int) (ms : List MessageRecord) :
    (admitRecentSel b ms).Sublist ms := by
  induction ms generalizing b with
  | nil => simp [admitRecentSel]
  | cons m rest ih =>
    unfold admitRecentSel
    by_cases h : b - msgCost m ≤ 0
    · rw [if_pos h]; exact List.nil_sublist _
    · rw [if_neg h]; exact List.Sublist.cons₂ m (ih _)

/-- The cost admitted by the first loop never exceeds the available budget. -/
theorem admitRecentSel_sum_le (b : Int) (ms : List MessageRecord) :
    ((admitRecentSel b ms).map msgCost).sum ≤ max b 0 := by
  induction ms generalizing b with
  | nil => simp [admitRecentSel]
  | cons m rest ih =>
    unfold admitRecentSel
    by_cases h : b - msgCost m ≤ 0
    · rw [if_pos h]; simp
    · rw [if_neg h]
      simp only [List.map_cons, List.sum_cons]
      have h2 := ih (b - msgCost m)
      have h3 := msgCost_pos m
      omega

/-- The budget left after the first loop is the initial budget minus the
admitted cost. -/
theorem admitRecentBudget_eq (b : Int) (ms : List MessageRecord) :
    admitRecentBudget b ms = b - ((admitRecentSel b ms).map msgCost).sum := by
  induction ms generalizing b with
  | nil => simp [admitRecentBudget, admitRecentSel]
  | cons m rest ih =>
    unfold admitRecentBudget admitRecentSel
    by_cases h : b - msgCost m ≤ 0
    · rw [if_pos h, if_pos h]; simp
    · rw [if_neg h, if_neg h]
      simp only [List.map_cons, List.sum_cons]
      have h2 := ih (b - msgCost m)
      omega

/-- The second loop produces a sublist of the reversed walk order followed by
the already selected messages. -/
theorem admitOlder_sublist (b : Int) (ms sel : List MessageRecord) :
    (admitOlder b ms sel).Sublist (ms.reverse ++ sel) := by
  induction ms generalizing b sel with
  | nil => simp [admitOlder]
  | cons m rest ih =>
    unfold admitOlder
    by_cases h : b - msgCost m ≤ 0
    · rw [if_pos h]
      have h1 : sel.Sublist (m :: sel) := List.sublist_cons_self m sel
      have h2 : (m :: sel).Sublist (rest.reverse ++ (m :: sel)) :=
        List.sublist_append_right _ _
      have h3 := h1.trans h2
      simp only [List.reverse_cons, List.append_assoc, List.singleton_append]
      exact h3
    · rw [if_neg h]
      have h1 := ih (b - msgCost m) (m :: sel)
      simpa [List.reverse_cons, List.append_assoc] using h1

/-- The cost added by the second loop also stays within the budget it was
given. -/
theorem admitOlder_sum_le (b : Int) (ms sel : List MessageRecord) :
    ((admitOlder b ms sel).map msgCost).sum ≤ (sel.map msgCost).sum + max b 0 := by
  induction ms generalizing b sel with
  | nil => simp [admitOlder]
  | cons m rest ih =>
    unfold admitOlder
    by_cases h : b - msgCost m ≤ 0
    · rw [if_pos h]
      have : (0 : Int) ≤ max b 0 := le_max_right b 0
      omega
    · rw [if_neg h]
      have h1 := ih (b - msgCost m) (m :: sel)
      simp only [List.map_cons, List.sum_cons] at h1
      have h3 := msgCost_pos m
      omega

/-- Total admitted cost of `buildContext` is bounded by the budget that
remains once the header is paid for. -/
theorem buildSelected_sum_le (cfg : ConversationManagerOptions) (state : ThreadState) :
    ((buildSelected cfg state).map msgCost).sum ≤ max (budget0 cfg state) 0 := by
  unfold buildSelected
  have h1 := admitRecentSel_sum_le (budget0 cfg state) (recentWindow cfg.keepRecent state.messages)
  have h2 := admitRecentBudget_eq (budget0 cfg state) (recentWindow cfg.keepRecent state.messages)
  have h3 := admitOlder_sum_le
    (admitRecentBudget (budget0 cfg state) (recentWindow cfg.keepRecent state.messages))
    ((olderWindow cfg.keepRecent state.messages).reverse)
    (admitRecentSel (budget0 cfg state) (recentWindow cfg.keepRecent state.messages))
  omega

/-- The selected messages form a sublist of the thread history, provided the
recent window has positive size (JavaScript `slice(-0)` would otherwise make
the two windows overlap). -/
theorem buildSelected_sublist (cfg : ConversationManagerOptions) (state : ThreadState)
    (hk : 1 ≤ cfg.keepRecent) :
    (buildSelected cfg state).Sublist state.messages := by
  unfold buildSelected
  have h1 := admitOlder_sublist
    (admitRecentBudget (budget0 cfg state) (recentWindow cfg.keepRecent state.messages))
    ((olderWindow cfg.keepRecent state.messages).reverse)
    (admitRecentSel (budget0 cfg state) (recentWindow cfg.keepRecent state.messages))
  rw [List.reverse_reverse] at h1
  have h2 := admitRecentSel_sublist (budget0 cfg state) (recentWindow cfg.keepRecent state.messages)
  have h3 := List.Sublist.append (List.Sublist.refl (olderWindow cfg.keepRecent state.messages)) h2
  have h4 : olderWindow cfg.keepRecent state.messages ++ recentWindow cfg.keepRecent state.messages
      = state.messages := by
    unfold olderWindow recentWindow
    rw [if_neg (by omega)]
    exact List.take_append_drop _ _
  rw [h4] at h3
  exact h1.trans h3

/-- A budget already exhausted by the header admits no message at all. -/
theorem buildSelected_nil_of_nonpos (cfg : ConversationManagerOptions) (state : ThreadState)
    (h : budget0 cfg state ≤ 0) :
    buildSelected cfg state = [] := by
  unfold buildSelected
  have hb : admitRecentBudget (budget0 cfg state) (recentWindow cfg.keepRecent state.messages)
      = budget0 cfg state := by
    rw [admitRecentBudget_eq, admitRecentSel_nil_of_nonpos _ _ h]
    simp
  rw [admitRecentSel_nil_of_nonpos _ _ h, hb, admitOlder_eq_of_nonpos _ _ _ h]

/-! Claim theorems. -/

/-- Claim C1 (evaluation of the code bug): on a thread of eight messages
whose history exceeds the compaction threshold, a failing completion call
during `maybeCompress` surfaces `CompletionFailure`, yet the stored thread
has lost its six oldest messages: the post-call `messages` equals the
two-message suffix and differs from the pre-call value, contradicting the
compaction-safety claim. -/
theorem C1_compaction_unsafe_eval :
    (maybeCompress cfgTrigger oracleFail storeBig "t" 9).1 = .error .completionFailure ∧
    ((maybeCompress cfgTrigger oracleFail storeBig "t" 9).2 "t").map ThreadState.messages
      = some (stBig.messages.drop 6) ∧
    ((maybeCompress cfgTrigger oracleFail storeBig "t" 9).2 "t").map ThreadState.messages
      ≠ some stBig.messages :=
  ⟨by rfl, by rfl, by decide⟩

/-- Claim C2 (counterexample): with `maxPromptTokens := 1` and the system
prompt `hi`, the header alone costs nine estimated tokens, so the aggregate
estimated cost of the returned context exceeds the configured maximum. -/
theorem C2_counterexample :
    ¬ (contextCost cfgTiny stEmpty ≤ cfgTiny.maxPromptTokens) := by decide

/-- Claim C2 (amended): whenever the synthesized header itself fits the
budget, the aggregate estimated token cost of the list returned by
`buildContext` (header estimate plus, per selected message, content
estimate plus the five-token overhead) is at most `maxPromptTokens`. -/
theorem C2_budget_invariant (cfg : ConversationManagerOptions) (state : ThreadState)
    (h : (estimateTokens (headerContent cfg.systemPrompt state.summary) : Int)
      ≤ cfg.maxPromptTokens) :
    contextCost cfg state ≤ cfg.maxPromptTokens := by
  have h1 := buildSelected_sum_le cfg state
  unfold budget0 at h1
  unfold contextCost
  omega

/-- Witness for C2: a roomy configuration and an empty thread satisfy the
header-fits hypothesis and hence the budget invariant. -/
theorem C2_budget_invariant_witness :
    (estimateTokens (headerContent cfgTrigger.systemPrompt stEmpty.summary) : Int)
      ≤ cfgTrigger.maxPromptTokens ∧
    contextCost cfgTrigger stEmpty ≤ cfgTrigger.maxPromptTokens :=
  ⟨by decide, C2_budget_invariant cfgTrigger stEmpty (by decide)⟩

/-- Claim C3: for every thread whose message ids are distinct and every
configuration with a positive recent window, the list returned by
`buildContext` is the header followed by the selected records, the selected
records form a sublist of the thread history (hence appear in insertion,
i.e. chronological, order), and their ids contain no duplicate. -/
theorem C3_order_invariant (cfg : ConversationManagerOptions) (state : ThreadState)
    (hk : 1 ≤ cfg.keepRecent) (hids : (state.messages.map MessageRecord.id).Nodup) :
    buildContextPure cfg state
      = BaseMessage.system (headerContent cfg.systemPrompt state.summary)
        :: (buildSelected cfg state).map toBaseMessage ∧
    (buildSelected cfg state).Sublist state.messages ∧
    ((buildSelected cfg state).map MessageRecord.id).Nodup := by
  refine ⟨rfl, buildSelected_sublist cfg state hk, ?_⟩
  exact hids.sublist ((buildSelected_sublist cfg state hk).map MessageRecord.id)

/-- Witness for C3 at the eight-message thread and the trigger-happy
configuration. -/
theorem C3_order_invariant_witness :
    1 ≤ cfgTrigger.keepRecent ∧
    (stBig.messages.map MessageRecord.id).Nodup ∧
    (buildContextPure cfgTrigger stBig
      = BaseMessage.system (headerContent cfgTrigger.systemPrompt stBig.summary)
        :: (buildSelected cfgTrigger stBig).map toBaseMessage ∧
     (buildSelected cfgTrigger stBig).Sublist stBig.messages ∧
     ((buildSelected cfgTrigger stBig).map MessageRecord.id).Nodup) :=
  ⟨by decide, by decide, C3_order_invariant cfgTrigger stBig (by decide) (by decide)⟩

/-- Claim C4: whenever the compaction trigger fires, `maybeCompress` removes
exactly `max 6 (len / 4)` oldest messages from the stored thread (all of
them when fewer remain): the new `messages` is the corresponding suffix of
the old one, the old list splits as removed-chunk ++ new list, and the
length drops by at least six or to zero. -/
theorem C4_compaction_progress (cfg : ConversationManagerOptions) (oracle : Oracle)
    (store : Store) (tid : String) (now : Nat) (state : ThreadState)
    (hs : store tid = some state) (hid : state.id = tid)
    (ht : cfg.compressAfterTokens ≤ (totalTokens state : Int)) :
    ∃ st', (maybeCompress cfg oracle store tid now).2 tid = some st' ∧
      st'.messages = state.messages.drop (compressChunkSize state) ∧
      state.messages = state.messages.take (compressChunkSize state) ++ st'.messages ∧
      (st'.messages.length + 6 ≤ state.messages.length ∨ st'.messages.length = 0) := by
  have hnotlt : ¬ ((totalTokens state : Int) < cfg.compressAfterTokens) := not_lt.mpr ht
  have hsave : ∀ st'' : ThreadState, st''.id = state.id → (store.save st'') tid = some st'' := by
    intro st'' hkeq
    unfold Store.save
    rw [hkeq, hid]
    simp
  have hchunk6 : 6 ≤ compressChunkSize state := le_max_left _ _
  have hlenfact : (state.messages.drop (compressChunkSize state)).length + 6
        ≤ state.messages.length
      ∨ (state.messages.drop (compressChunkSize state)).length = 0 := by
    rw [List.length_drop]
    by_cases hle : state.messages.length ≤ compressChunkSize state
    · right; omega
    · left; omega
  cases ho : oracle (compressionPrompt state.summary
      (state.messages.take (compressChunkSize state))) with
  | error e =>
    refine ⟨{ state with messages := state.messages.drop (compressChunkSize state) }, ?_, rfl,
      (List.take_append_drop _ _).symm, hlenfact⟩
    simp only [maybeCompress, hs, if_neg hnotlt, ho]
    exact hsave _ rfl
  | ok text =>
    refine ⟨{ state with
        messages := state.messages.drop (compressChunkSize state)
        summary := trimString text
        lastUpdated := now }, ?_, rfl,
      (List.take_append_drop _ _).symm, hlenfact⟩
    simp only [maybeCompress, hs, if_neg hnotlt, ho]
    exact hsave _ rfl

/-- Witness for C4 at the eight-message thread: the trigger fires and the
six oldest messages are removed. -/
theorem C4_compaction_progress_witness :
    storeBig "t" = some stBig ∧ stBig.id = "t" ∧
    cfgTrigger.compressAfterTokens ≤ (totalTokens stBig : Int) ∧
    (∃ st', (maybeCompress cfgTrigger oracleOk storeBig "t" 9).2 "t" = some st' ∧
      st'.messages = stBig.messages.drop (compressChunkSize stBig) ∧
      stBig.messages = stBig.messages.take (compressChunkSize stBig) ++ st'.messages ∧
      (st'.messages.length + 6 ≤ stBig.messages.length ∨ st'.messages.length = 0)) :=
  ⟨by decide, by decide, by decide,
    C4_compaction_progress cfgTrigger oracleOk storeBig "t" 9 stBig
      (by decide) (by decide) (by decide)⟩

/-- Claim C5: when `maxPromptTokens` is smaller than the estimated cost of
the synthesized header alone, `buildContext` succeeds and returns exactly
the one-element list holding the header, with no additional messages and no
error. -/
theorem C5_header_degradation (cfg : ConversationManagerOptions) (store : Store)
    (tid : String) (state : ThreadState) (hs : store tid = some state)
    (hb : cfg.maxPromptTokens
      < (estimateTokens (headerContent cfg.systemPrompt state.summary) : Int)) :
    buildContext cfg store tid
      = (.ok [BaseMessage.system (headerContent cfg.systemPrompt state.summary)], store) := by
  have h0 : budget0 cfg state ≤ 0 := by
    unfold budget0
    omega
  have hsel := buildSelected_nil_of_nonpos cfg state h0
  simp only [buildContext, hs, buildContextPure, hsel, List.map_nil]

/-- Witness for C5: with a one-token budget and an eight-message thread the
assembled context is exactly the header. -/
theorem C5_header_degradation_witness :
    storeBig "t" = some stBig ∧
    cfgTiny.maxPromptTokens
      < (estimateTokens (headerContent cfgTiny.systemPrompt stBig.summary) : Int) ∧
    buildContext cfgTiny storeBig "t"
      = (.ok [BaseMessage.system (headerContent cfgTiny.systemPrompt stBig.summary)], storeBig) :=
  ⟨by decide, by decide, C5_header_degradation cfgTiny storeBig "t" stBig (by decide) (by decide)⟩

/-- Claim C6: re-initializing an existing thread id is a no-op: `initThread`
returns the id unchanged together with the unmodified storage (hence the
thread keeps its `messages` and `summary`), and a second call returns the
same id again. -/
theorem C6_idempotent_reinit (store : Store) (tid : String) (now now2 : Nat)
    (st : ThreadState) (hs : store tid = some st) :
    initThread store tid now = (tid, store) ∧
    initThread ((initThread store tid now).2) tid now2 = (tid, store) := by
  have h1 : initThread store tid now = (tid, store) := by
    unfold initThread
    rw [hs]
  have h2 : (initThread store tid now).2 = store := by rw [h1]
  refine ⟨h1, ?_⟩
  rw [h2]
  unfold initThread
  rw [hs]

/-- Witness for C6 at the concrete one-thread storage. -/
theorem C6_idempotent_reinit_witness :
    storeBig "t" = some stBig ∧
    initThread storeBig "t" 100 = ("t", storeBig) ∧
    initThread ((initThread storeBig "t" 100).2) "t" 200 = ("t", storeBig) :=
  ⟨by decide,
    (C6_idempotent_reinit storeBig "t" 100 200 stBig (by decide)).1,
    (C6_idempotent_reinit storeBig "t" 100 200 stBig (by decide)).2⟩

/-- Claim C7: every operation except `initThread`, invoked on a thread id
absent from storage, fails with the not-found error and returns the storage
unchanged. -/
theorem C7_notfound_propagation (cfg : ConversationManagerOptions) (oracle : Oracle)
    (store : Store) (tid : String) (hs : store tid = none)
    (content uid1 uid2 userInput : String) (now : Nat) :
    addUserMessage store tid content uid1 now = (.error (.notFound tid), store) ∧
    addAssistantMessage store tid content uid1 now = (.error (.notFound tid), store) ∧
    buildContext cfg store tid = (.error (.notFound tid), store) ∧
    maybeCompress cfg oracle store tid now = (.error (.notFound tid), store) ∧
    getThreadView store tid = (.error (.notFound tid), store) ∧
    generate cfg oracle store tid userInput uid1 uid2 now = (.error (.notFound tid), store) := by
  have h1 : addUserMessage store tid userInput uid1 now = (.error (.notFound tid), store) := by
    unfold addUserMessage
    rw [hs]
  refine ⟨?_, ?_, ?_, ?_, ?_, ?_⟩
  · unfold addUserMessage
    rw [hs]
  · unfold addAssistantMessage
    rw [hs]
  · unfold buildContext
    rw [hs]
  · unfold maybeCompress
    rw [hs]
  · unfold getThreadView
    rw [hs]
  · unfold generate
    rw [h1]

/-- Witness for C7 at the empty storage and the id `ghost`. -/
theorem C7_notfound_propagation_witness :
    Store.empty "ghost" = none ∧
    (addUserMessage Store.empty "ghost" "hello" "u1" 0
        = (.error (.notFound "ghost"), Store.empty) ∧
     addAssistantMessage Store.empty "ghost" "hello" "u1" 0
        = (.error (.notFound "ghost"), Store.empty) ∧
     buildContext cfgTrigger Store.empty "ghost"
        = (.error (.notFound "ghost"), Store.empty) ∧
     maybeCompress cfgTrigger oracleOk Store.empty "ghost" 0
        = (.error (.notFound "ghost"), Store.empty) ∧
     getThreadView Store.empty "ghost"
        = (.error (.notFound "ghost"), Store.empty) ∧
     generate cfgTrigger oracleOk Store.empty "ghost" "hi" "u1" "u2" 0
        = (.error (.notFound "ghost"), Store.empty)) :=
  ⟨rfl, C7_notfound_propagation cfgTrigger oracleOk Store.empty "ghost" rfl "hello" "u1" "u2" "hi" 0⟩

/-- Claim C8 (counterexample): `estimateTokens` is not monotonic in input
length: `a b c` is shorter than `aaaaaaaa` yet estimates to four tokens
against one. -/
theorem C8_counterexample :
    "a b c".length ≤ "aaaaaaaa".length ∧
    ¬ (estimateTokens "a b c" ≤ estimateTokens "aaaaaaaa") := by decide

/-- Claim C8 (amended): `estimateTokens` is deterministic, and it is
monotonic in the whitespace-separated word count of its input rather than
in raw character length. -/
theorem C8_estimator_deterministic_wordMonotone :
    (∀ s t : String, s = t → estimateTokens s = estimateTokens t) ∧
    (∀ s t : String, wordCount s ≤ wordCount t → estimateTokens s ≤ estimateTokens t) := by
  constructor
  · intro s t h
    rw [h]
  · intro s t h
    unfold estimateTokens
    have h1 : 13 * wordCount s + 5 ≤ 13 * wordCount t + 5 := by omega
    exact max_le_max (le_refl 1) (Nat.div_le_div_right h1)

/-- Witness for C8: the word-count ordering of two concrete strings is
reflected by the estimator. -/
theorem C8_estimator_deterministic_wordMonotone_witness :
    wordCount "a" ≤ wordCount "a b" ∧ estimateTokens "a" ≤ estimateTokens "a b" :=
  ⟨by decide, C8_estimator_deterministic_wordMonotone.2 "a" "a b" (by decide)⟩

/-- Claim C9: `estimateTokens` returns at least one for every non-empty
text, and on the empty string it consistently returns the fixed floor one. -/
theorem C9_estimator_lower_bound :
    (∀ s : String, s ≠ "" → 1 ≤ estimateTokens s) ∧ estimateTokens "" = 1 := by
  constructor
  · intro s _
    unfold estimateTokens
    exact le_max_left 1 _
  · decide

/-- Witness for C9 at the one-character string `x`. -/
theorem C9_estimator_lower_bound_witness :
    ("x" : String) ≠ "" ∧ 1 ≤ estimateTokens "x" :=
  ⟨by decide, C9_estimator_lower_bound.1 "x" (by decide)⟩

end ConvMgr
